import Mathlib

/-!
Verification development for a PDF parsing-comparison application
(`src/app.py`).  The program is embedded shallowly:

* Python byte strings / `BytesIO` streams become `Bytes` / `ByteStream`;
* the process state touched by the program (environment variables,
  temporary files, the `cache/` directory, the bundled example files)
  becomes the `World` structure, threaded explicitly;
* each third-party parsing library / remote service is a parameter
  (the `Libs` structure), since the program treats them as black boxes;
* a Python call either returns a value or raises, captured by `PyResult`;
* the Streamlit script run (module-level code of `app.py`) becomes the
  `runScript` function over a `Session` (Streamlit session state).
-/

set_option autoImplicit false

namespace ParsingApp

/-- Outcome of a Python call: a normal return, or a raised exception
carrying a message. -/
inductive PyResult (α : Type) where
  | ok (val : α)
  | exn (msg : String)
deriving DecidableEq, Repr

/-- Raw bytes of a document (a Python `bytes` value). -/
abbrev Bytes := List Nat

/-- A `BytesIO` stream: underlying bytes plus a read position. -/
structure ByteStream where
  data : Bytes
  pos : Nat
deriving DecidableEq, Repr

/-- `stream.read()`: returns everything from the current position and
leaves the position at the end of the data. -/
def ByteStream.read (s : ByteStream) : Bytes × ByteStream :=
  (s.data.drop s.pos, { s with pos := s.data.length })

/-- First-match lookup in an association list (a write is modelled by
consing, so the most recent binding for a key wins, like overwriting a
file or a dict entry). -/
def lookupStr {α : Type} (k : String) : List (String × α) → Option α
  | [] => none
  | (k', v) :: rest => if k' = k then some v else lookupStr k rest

/-- The process state visible to `app.py`: environment variables, the
temporary files created under `/tmp`, the `cache/` directory contents,
and the bundled example PDF files. -/
structure World where
  env : List (String × String)
  tmpFiles : List (String × Bytes)
  cacheFiles : List (String × String)
  exampleFiles : List (String × Bytes)
deriving DecidableEq, Repr

/-- The fresh name `tempfile.NamedTemporaryFile` picks for the next
temporary file. -/
def freshTmpName (w : World) : String :=
  "/tmp/tmp" ++ toString w.tmpFiles.length ++ ".pdf"

/-- `tempfile.NamedTemporaryFile(delete=False, suffix=".pdf")` followed by
`tmp.write(content)`: creates a fresh file holding `content`.  Because of
`delete=False` the file stays on disk until someone removes it (nothing in
`app.py` ever does). -/
def writeTemp (w : World) (content : Bytes) : String × World :=
  (freshTmpName w,
   { w with tmpFiles := w.tmpFiles ++ [(freshTmpName w, content)] })

/-- Python truthiness test `not api_key` for `os.environ.get(...)`:
true when the variable is absent or bound to the empty string. -/
def pyFalsy : Option String → Bool
  | none => true
  | some s => s = ""

/-- The third-party libraries and the remote OCR service used by the four
adapters, abstracted as functions of the document bytes (each library is
handed a path to a temporary file whose content is exactly those bytes).
Images produced by `pdf2image.convert_from_path` are abstract tokens. -/
structure Libs where
  rasterize : Bytes → PyResult (List Nat)
  image_to_string : Nat → String
  docling_convert : Bytes → PyResult String
  pymupdf_to_markdown : Bytes → PyResult String
  mistral_ocr : Bytes → PyResult (List String)

/-- Type of the four extraction adapters: given the libraries, a PDF
stream and the current world, produce a result, the consumed stream and
the new world. -/
abbrev Adapter := Libs → ByteStream → World → PyResult String × ByteStream × World

/-- One page section of the pytesseract output:
`f"### Page {i+1}\n{text}\n\n"` with `text = image_to_string(img)`. -/
def sect (ocr : Nat → String) (i : Nat) (img : Nat) : String :=
  "### Page " ++ toString (i + 1) ++ "\n" ++ ocr img ++ "\n\n"

/-- The accumulation loop of `parse_with_pytesseract`:
`for i, img in enumerate(images): ocr_output += f"### Page {i+1}\n..."`. -/
def ocrConcat (ocr : Nat → String) (imgs : List Nat) : String :=
  imgs.enum.foldl (fun acc p => acc ++ sect ocr p.1 p.2) ""

/-- `parse_with_pytesseract`: write the stream to a temp file, rasterize
it to page images, OCR each page and concatenate with page headings. -/
def parse_with_pytesseract : Adapter := fun libs s w =>
  let r := s.read
  let t := writeTemp w r.1
  match libs.rasterize r.1 with
  | .exn e => (.exn e, r.2, t.2)
  | .ok imgs => (.ok (ocrConcat libs.image_to_string imgs), r.2, t.2)

/-- `parse_with_docling`: write the stream to a temp file and convert it
through `docling.document_converter`. -/
def parse_with_docling : Adapter := fun libs s w =>
  let r := s.read
  let t := writeTemp w r.1
  (libs.docling_convert r.1, r.2, t.2)

/-- `parse_with_pymupdf`: write the stream to a temp file and convert it
with `pymupdf4llm.to_markdown`. -/
def parse_with_pymupdf : Adapter := fun libs s w =>
  let r := s.read
  let t := writeTemp w r.1
  (libs.pymupdf_to_markdown r.1, r.2, t.2)

/-- `parse_with_mistral`: write the stream to a temp file, then look up
`MISTRAL_API_KEY`; if it is falsy return the sentinel string, otherwise
upload the document and concatenate the returned page markdowns with
blank-line separators. -/
def parse_with_mistral : Adapter := fun libs s w =>
  let r := s.read
  let t := writeTemp w r.1
  if pyFalsy (lookupStr "MISTRAL_API_KEY" t.2.env) then
    (.ok "Mistral API key is not set in environment variables.", r.2, t.2)
  else
    match libs.mistral_ocr r.1 with
    | .exn e => (.exn e, r.2, t.2)
    | .ok pages => (.ok (pages.foldl (fun acc p => acc ++ p ++ "\n\n") ""), r.2, t.2)

/-- `os.path.basename` for a POSIX path: the part after the last `/`. -/
def afterLastSlash (l : List Char) : List Char :=
  (l.reverse.takeWhile (fun c => c != '/')).reverse

/-- The root part of `os.path.splitext` applied to a file name without
directory separators: split at the last dot, except when every character
before that dot is itself a dot (then nothing is split off). -/
def splitextRoot (b : List Char) : List Char :=
  match b.reverse.dropWhile (fun c => c != '.') with
  | [] => b
  | _ :: pre => if pre.all (fun c => c = '.') then b else pre.reverse

/-- `os.path.join(d, f)` for the shapes used here (`d` nonempty, not
ending in a slash): `f` if it is absolute, else `d ++ "/" ++ f`. -/
def pyJoin (d f : String) : String :=
  if f.data.head? = some '/' then f else d ++ "/" ++ f

/-- `get_cache_filename`: `os.path.join("cache", base ++ "_" ++ slug ++ ".md")`
where `base` is the example path's basename without extension. -/
def get_cache_filename (example_path method_slug : String) : String :=
  pyJoin "cache"
    (String.mk (splitextRoot (afterLastSlash example_path.data)) ++ "_"
      ++ method_slug ++ ".md")

/-- `get_cached_conversion`: return the cache file's contents when it
exists; otherwise read the example file, run the parsing function on a
fresh stream over its bytes, persist the result and return it.  The
final `Bool` records whether the parsing function was invoked. -/
def get_cached_conversion (libs : Libs) (w : World)
    (example_path method_slug : String) (parseFn : Adapter) :
    PyResult String × World × Bool :=
  match lookupStr (get_cache_filename example_path method_slug) w.cacheFiles with
  | some content => (.ok content, w, false)
  | none =>
    match lookupStr example_path w.exampleFiles with
    | none => (.exn ("FileNotFoundError: " ++ example_path), w, false)
    | some bytes =>
      match parseFn libs ⟨bytes, 0⟩ w with
      | (.exn e, _, w') => (.exn e, w', true)
      | (.ok result, _, w') =>
        (.ok result,
         { w' with cacheFiles :=
             (get_cache_filename example_path method_slug, result) :: w'.cacheFiles },
         true)

/-- One entry of the assembled result set: extracted text for a method, or
the raw document bytes for the pseudo-method `"Original Document"`. -/
inductive Entry where
  | text (s : String)
  | doc (b : Bytes)
deriving DecidableEq, Repr

/-- A result set: method display name to entry, in insertion order. -/
abbrev Results := List (String × Entry)

/-- Streamlit session state, holding `st.session_state.results` (uploaded
documents) and the per-example keys `st.session_state[example_key]`. -/
structure Session where
  uploadedResults : Option Results
  stored : List (String × Results)
deriving DecidableEq, Repr

/-- A user-visible message emitted during a script run. -/
inductive Msg where
  | sidebarSuccess (s : String)
  | sidebarInfo (s : String)
  | sidebarError (s : String)
  | info (s : String)
deriving DecidableEq, Repr

/-- What the main area of the page shows after a script run. -/
inductive Display where
  | processing
  | selector (options : List String)
  | prompt
  | aborted
deriving DecidableEq, Repr

/-- Everything observable about one Streamlit script run: whether it
finished or raised, the final process state, the final session state, the
messages shown and the main display. -/
structure RunOutcome where
  res : PyResult Unit
  world : World
  session : Session
  msgs : List Msg
  display : Display
deriving DecidableEq, Repr

/-- The uploaded-document method loop of `app.py` (fixed order). -/
def uploadedMethods : List (String × Adapter) :=
  [("Pytesseract OCR", parse_with_pytesseract),
   ("Docling Conversion", parse_with_docling),
   ("PyMuPDF Conversion", parse_with_pymupdf),
   ("Mistral OCR", parse_with_mistral)]

/-- The example-document method loop of `app.py`, with cache slugs. -/
def exampleMethods : List (String × Adapter × String) :=
  [("Pytesseract OCR", parse_with_pytesseract, "pytesseract"),
   ("Docling Conversion", parse_with_docling, "docling"),
   ("PyMuPDF Conversion", parse_with_pymupdf, "pymupdf"),
   ("Mistral OCR", parse_with_mistral, "mistral")]

/-- Run the uploaded-document loop: call each adapter on a fresh
`BytesIO(pdf_bytes)` stream, accumulating entries into the session dict.
An exception stops the loop (later methods do not run) and is reported as
the third component; the first component is the entries accumulated
before the failure, mirroring the in-place dict mutation of the code. -/
def runMethodsUploaded (libs : Libs) (b : Bytes) :
    World → List (String × Adapter) → Results × World × Option String
  | w, [] => ([], w, none)
  | w, (name, p) :: rest =>
    match p libs ⟨b, 0⟩ w with
    | (.exn e, _, w') => ([], w', some e)
    | (.ok t, _, w') =>
      match runMethodsUploaded libs b w' rest with
      | (es, w'', err) => ((name, .text t) :: es, w'', err)

/-- Run the example-document loop through `get_cached_conversion`. -/
def runMethodsExample (libs : Libs) (path : String) :
    World → List (String × Adapter × String) → Results × World × Option String
  | w, [] => ([], w, none)
  | w, (name, p, slug) :: rest =>
    match get_cached_conversion libs w path slug p with
    | (.exn e, w', _) => ([], w', some e)
    | (.ok t, w', _) =>
      match runMethodsExample libs path w' rest with
      | (es, w'', err) => ((name, .text t) :: es, w'', err)

/-- The fallback prompt `st.info(...)` of the final `else` branch. -/
def promptMsg : String := "Please upload a PDF or select an example from the sidebar."

/-- The display guard of `app.py`: only show the method selector once
`"Original Document"` is among the results, otherwise keep displaying
the processing notice. -/
def finishDisplay (res : Results) (w : World) (sess : Session)
    (msgs : List Msg) : RunOutcome :=
  if (lookupStr "Original Document" res).isNone then
    ⟨.ok (), w, sess,
     msgs ++ [.sidebarInfo "Processing document... please wait.",
              .info "Processing document... please wait."],
     .processing⟩
  else
    ⟨.ok (), w, sess, msgs, .selector (res.map Prod.fst)⟩

/-- The uploaded-document branch: compute the four methods once per
session, append the original bytes last, then apply the display guard.
If a method raises, the partially filled dict stays in the session and
the script run aborts. -/
def processUploaded (libs : Libs) (w : World) (sess : Session) (b : Bytes)
    (msgs : List Msg) : RunOutcome :=
  match sess.uploadedResults with
  | some res => finishDisplay res w sess msgs
  | none =>
    match runMethodsUploaded libs b w uploadedMethods with
    | (es, w', some e) =>
      ⟨.exn e, w', { sess with uploadedResults := some es }, msgs, .aborted⟩
    | (es, w', none) =>
      let res := es ++ [("Original Document", .doc b)]
      finishDisplay res w' { sess with uploadedResults := some res } msgs

/-- The example-document branch: results stored per example under
`example_key`, computed through the cache helpers. -/
def processExample (libs : Libs) (w : World) (sess : Session)
    (path choiceName : String) (b : Bytes) (msgs : List Msg) : RunOutcome :=
  let key := "results_example_" ++ choiceName.map (fun c => if c = ' ' then '_' else c)
  match lookupStr key sess.stored with
  | some res => finishDisplay res w sess msgs
  | none =>
    match runMethodsExample libs path w exampleMethods with
    | (es, w', some e) =>
      ⟨.exn e, w', { sess with stored := (key, es) :: sess.stored }, msgs, .aborted⟩
    | (es, w', none) =>
      let res := es ++ [("Original Document", .doc b)]
      finishDisplay res w' { sess with stored := (key, res) :: sess.stored } msgs

/-- The example path chosen by the sidebar radio button. -/
def examplePathOf (ocrChoice : Bool) : String :=
  if ocrChoice then "examples/Ocr.pdf" else "examples/Non_Ocr.pdf"

/-- The display label of the chosen example. -/
def exampleChoiceName (ocrChoice : Bool) : String :=
  if ocrChoice then "Example OCR PDF" else "Example Non-OCR PDF"

/-- One Streamlit script run of `app.py`: pick the document source, load
its bytes, process it (with session memoization and, for examples, the
disk cache), and decide what to display. -/
def runScript (libs : Libs) (w : World) (sess : Session)
    (uploaded : Option Bytes) (ocrChoice : Bool) : RunOutcome :=
  match uploaded with
  | some b =>
    if b = [] then
      ⟨.ok (), w, sess, [.sidebarSuccess "PDF uploaded successfully!", .info promptMsg], .prompt⟩
    else
      processUploaded libs w sess b [.sidebarSuccess "PDF uploaded successfully!"]
  | none =>
    match lookupStr (examplePathOf ocrChoice) w.exampleFiles with
    | some b =>
      if b = [] then
        ⟨.ok (), w, sess,
         [.sidebarInfo ("Using " ++ exampleChoiceName ocrChoice), .info promptMsg], .prompt⟩
      else
        processExample libs w sess (examplePathOf ocrChoice) (exampleChoiceName ocrChoice) b
          [.sidebarInfo ("Using " ++ exampleChoiceName ocrChoice)]
    | none =>
      ⟨.ok (), w, sess,
       [.sidebarError ("Example file not found: " ++ examplePathOf ocrChoice), .info promptMsg],
       .prompt⟩

/-- The four method display names, in the fixed loop order. -/
def methodNames4 : List String :=
  ["Pytesseract OCR", "Docling Conversion", "PyMuPDF Conversion", "Mistral OCR"]

/-- The five keys of a complete result set, in insertion order. -/
def fiveNames : List String := methodNames4 ++ ["Original Document"]

/-- Session states reachable by repeatedly running the script from the
initial (empty) Streamlit session. -/
inductive ReachableSession : Session → Prop where
  | init : ReachableSession ⟨none, []⟩
  | step (libs : Libs) (w : World) (sess : Session) (up : Option Bytes) (ch : Bool) :
      ReachableSession sess → ReachableSession (runScript libs w sess up ch).session

/-! ### Concrete fixtures used by witnesses and counterexamples -/

/-- A library bundle where every external call succeeds: one page image
per document, OCR text `"hi"`, fixed conversion outputs. -/
def L0 : Libs :=
  { rasterize := fun _ => .ok [7], image_to_string := fun _ => "hi",
    docling_convert := fun _ => .ok "docling out",
    pymupdf_to_markdown := fun _ => .ok "pymupdf out",
    mistral_ocr := fun _ => .ok ["page one"] }

/-- Like `L0` but the docling conversion raises. -/
def LBad : Libs := { L0 with docling_convert := fun _ => .exn "docling boom" }

/-- Empty process state: no environment, no files anywhere. -/
def W0 : World := ⟨[], [], [], []⟩

/-- Process state with only the bundled OCR example present. -/
def W1 : World := ⟨[], [], [], [("examples/Ocr.pdf", [1])]⟩

/-! ### Helper lemmas about the cache-key computation -/

theorem mem_afterLastSlash {c : Char} {l : List Char}
    (h : c ∈ afterLastSlash l) : c ≠ '/' := by
  unfold afterLastSlash at h
  rw [List.mem_reverse] at h
  have hp := List.mem_takeWhile_imp h
  simpa using hp

theorem mem_splitextRoot {c : Char} {b : List Char}
    (h : c ∈ splitextRoot b) : c ∈ b := by
  unfold splitextRoot at h
  split at h
  · exact h
  · rename_i x pre heq
    split at h
    · exact h
    · rw [List.mem_reverse] at h
      have hsub : List.Sublist (x :: pre) b.reverse := heq ▸ List.dropWhile_sublist _
      exact List.mem_reverse.mp (hsub.subset (List.mem_cons_of_mem x h))

theorem cacheComponent_head {root : List Char} {m : String}
    (hroot : ∀ c ∈ root, c ≠ '/') :
    ¬ ((String.mk root ++ "_" ++ m ++ ".md").data.head? = some '/') := by
  have h1 : ("_" : String).data = ['_'] := rfl
  have h2 : ((".md" : String)).data = ['.', 'm', 'd'] := rfl
  have h3 : (String.mk root).data = root := rfl
  have hdata : (String.mk root ++ "_" ++ m ++ ".md").data
      = root ++ ('_' :: (m.data ++ ['.', 'm', 'd'])) := by
    simp [String.data_append, h1, h2, h3]
  rw [hdata]
  cases root with
  | nil => simp
  | cons c cs =>
    simp only [List.cons_append, List.head?_cons, Option.some_inj]
    intro h
    exact hroot c (List.mem_cons_self c cs) h

/-- Claim C3: the cache key function is deterministic and always yields
`"cache/" ++ basename-without-extension ++ "_" ++ slug ++ ".md"`; in
particular `get_cache_filename "examples/Ocr.pdf" "pymupdf"` is
`"cache/Ocr_pymupdf.md"`. -/
theorem claim_C3 :
    get_cache_filename "examples/Ocr.pdf" "pymupdf" = "cache/Ocr_pymupdf.md" ∧
    ∀ p m : String, get_cache_filename p m =
      "cache/" ++ (String.mk (splitextRoot (afterLastSlash p.data)) ++ "_" ++ m ++ ".md") := by
  refine ⟨by decide, fun p m => ?_⟩
  unfold get_cache_filename pyJoin
  rw [if_neg (cacheComponent_head (fun c hc => mem_afterLastSlash (mem_splitextRoot hc)))]
  rw [show ("cache" : String) ++ "/" = "cache/" from by decide]

/-! ### Helper lemmas about the pytesseract page loop -/

/-- The per-page concatenation described by the spec: page sections in
order, numbered from `i + 1`. -/
def pagesFrom (ocr : Nat → String) : Nat → List Nat → String
  | _, [] => ""
  | i, img :: rest => sect ocr i img ++ pagesFrom ocr (i + 1) rest

theorem foldl_sect (ocr : Nat → String) :
    ∀ (l : List Nat) (i : Nat) (a : String),
      (List.enumFrom i l).foldl (fun acc p => acc ++ sect ocr p.1 p.2) a
        = a ++ pagesFrom ocr i l := by
  intro l
  induction l with
  | nil => intro i a; simp [pagesFrom, List.enumFrom]
  | cons x xs ih =>
    intro i a
    simp only [List.enumFrom, List.foldl_cons, pagesFrom]
    rw [ih, String.append_assoc]

theorem ocrConcat_eq (ocr : Nat → String) (imgs : List Nat) :
    ocrConcat ocr imgs = pagesFrom ocr 0 imgs := by
  unfold ocrConcat
  rw [show imgs.enum = List.enumFrom 0 imgs from rfl, foldl_sect]
  simp

theorem pagesFrom_contains (ocr : Nat → String) :
    ∀ (l : List Nat) (i k : Nat) (hk : k < l.length),
      ∃ pre post : List Char,
        (pagesFrom ocr i l).data
          = pre ++ (sect ocr (i + k) (l.get ⟨k, hk⟩)).data ++ post := by
  intro l
  induction l with
  | nil => intro i k hk; exact absurd hk (by simp)
  | cons x xs ih =>
    intro i k hk
    cases k with
    | zero =>
      refine ⟨[], (pagesFrom ocr (i + 1) xs).data, ?_⟩
      simp [pagesFrom, String.data_append]
    | succ k' =>
      obtain ⟨pre, post, hp⟩ := ih (i + 1) k' (Nat.lt_of_succ_lt_succ (by simpa using hk))
      refine ⟨(sect ocr i x).data ++ pre, post, ?_⟩
      have harith : i + 1 + k' = i + (k' + 1) := by omega
      rw [harith] at hp
      simp [pagesFrom, String.data_append, hp, List.append_assoc]

/-- Claim C4: on a document whose rasterization yields `imgs`, the
pytesseract adapter returns the concatenation, in page order, of a
`### Page N` heading followed by that page's OCR text (an empty OCR text
still yields its section), and each page's heading occurs in the
output — for a 1-page document in particular the heading `### Page 1`. -/
theorem claim_C4 (libs : Libs) (s : ByteStream) (w : World) (imgs : List Nat)
    (h : libs.rasterize s.read.1 = .ok imgs) :
    (parse_with_pytesseract libs s w).1 = .ok (ocrConcat libs.image_to_string imgs) ∧
    ocrConcat libs.image_to_string imgs = pagesFrom libs.image_to_string 0 imgs ∧
    (∀ k (hk : k < imgs.length), ∃ pre post : List Char,
      (ocrConcat libs.image_to_string imgs).data
        = pre ++ (sect libs.image_to_string k (imgs.get ⟨k, hk⟩)).data ++ post) ∧
    (∀ k (hk : k < imgs.length), ∃ pre post : List Char,
      (ocrConcat libs.image_to_string imgs).data
        = pre ++ ("### Page " ++ toString (k + 1)).data ++ post) := by
  have hsec : ∀ k (hk : k < imgs.length), ∃ pre post : List Char,
      (ocrConcat libs.image_to_string imgs).data
        = pre ++ (sect libs.image_to_string k (imgs.get ⟨k, hk⟩)).data ++ post := by
    intro k hk
    rw [ocrConcat_eq]
    have := pagesFrom_contains libs.image_to_string imgs 0 k hk
    simpa using this
  refine ⟨?_, ocrConcat_eq _ _, hsec, ?_⟩
  · simp [parse_with_pytesseract, h]
  · intro k hk
    obtain ⟨pre, post, hp⟩ := hsec k hk
    refine ⟨pre,
      ("\n" ++ libs.image_to_string (imgs.get ⟨k, hk⟩) ++ "\n\n").data ++ post, ?_⟩
    rw [hp]
    simp [sect, String.data_append, List.append_assoc]

/-- Witness for C4 at a concrete 1-page document: the output of the
pytesseract adapter's page loop contains the heading `### Page 1`. -/
theorem claim_C4_witness :
    L0.rasterize ((⟨[1], 0⟩ : ByteStream).read.1) = .ok [7] ∧
    ∃ pre post : List Char,
      (ocrConcat L0.image_to_string [7]).data
        = pre ++ ("### Page " ++ toString (0 + 1)).data ++ post :=
  ⟨rfl, (claim_C4 L0 ⟨[1], 0⟩ W0 [7] rfl).2.2.2 0 (by decide)⟩

/-! ### World effect of the four adapters -/

theorem pytesseract_world (libs : Libs) (s : ByteStream) (w : World) :
    (parse_with_pytesseract libs s w).2.1 = { s with pos := s.data.length } ∧
    (parse_with_pytesseract libs s w).2.2
      = { w with tmpFiles := w.tmpFiles ++ [(freshTmpName w, s.data.drop s.pos)] } := by
  simp only [parse_with_pytesseract, writeTemp, ByteStream.read]
  cases hr : libs.rasterize (s.data.drop s.pos) <;> simp [hr]

theorem docling_world (libs : Libs) (s : ByteStream) (w : World) :
    (parse_with_docling libs s w).2.1 = { s with pos := s.data.length } ∧
    (parse_with_docling libs s w).2.2
      = { w with tmpFiles := w.tmpFiles ++ [(freshTmpName w, s.data.drop s.pos)] } := by
  simp [parse_with_docling, writeTemp, ByteStream.read]

theorem pymupdf_world (libs : Libs) (s : ByteStream) (w : World) :
    (parse_with_pymupdf libs s w).2.1 = { s with pos := s.data.length } ∧
    (parse_with_pymupdf libs s w).2.2
      = { w with tmpFiles := w.tmpFiles ++ [(freshTmpName w, s.data.drop s.pos)] } := by
  simp [parse_with_pymupdf, writeTemp, ByteStream.read]

theorem mistral_world (libs : Libs) (s : ByteStream) (w : World) :
    (parse_with_mistral libs s w).2.1 = { s with pos := s.data.length } ∧
    (parse_with_mistral libs s w).2.2
      = { w with tmpFiles := w.tmpFiles ++ [(freshTmpName w, s.data.drop s.pos)] } := by
  simp only [parse_with_mistral, writeTemp, ByteStream.read]
  split
  · simp
  · cases hr : libs.mistral_ocr (s.data.drop s.pos) <;> simp [hr]

/-- Claim C8 counterexample: after a pymupdf extraction call returns, the
temporary copy of the document is still on disk (the adapters create the
temp file with `delete=False` and never remove it), refuting "no
temporary copy of the document remains on disk". -/
theorem claim_C8_counterexample :
    (parse_with_pymupdf L0 ⟨[5], 0⟩ W0).2.2.tmpFiles ≠ [] := by decide

/-- Claim C8 as amended: each adapter's only persistent filesystem effect
is the temporary file it creates, but that file is never deleted — after
every extract call, on every exit path, exactly one new temporary file
holding the document bytes remains on disk. -/
theorem claim_C8_amended (libs : Libs) (s : ByteStream) (w : World) :
    (parse_with_pytesseract libs s w).2.2.tmpFiles
        = w.tmpFiles ++ [(freshTmpName w, s.data.drop s.pos)] ∧
    (parse_with_docling libs s w).2.2.tmpFiles
        = w.tmpFiles ++ [(freshTmpName w, s.data.drop s.pos)] ∧
    (parse_with_pymupdf libs s w).2.2.tmpFiles
        = w.tmpFiles ++ [(freshTmpName w, s.data.drop s.pos)] ∧
    (parse_with_mistral libs s w).2.2.tmpFiles
        = w.tmpFiles ++ [(freshTmpName w, s.data.drop s.pos)] := by
  refine ⟨?_, ?_, ?_, ?_⟩
  · rw [(pytesseract_world libs s w).2]
  · rw [(docling_world libs s w).2]
  · rw [(pymupdf_world libs s w).2]
  · rw [(mistral_world libs s w).2]

/-- Claim C10: with a falsy `MISTRAL_API_KEY`, the mistral adapter still
consumes the whole input stream and writes it to a fresh temporary file
before checking the credential, then returns the sentinel; the stream is
left exhausted and the temporary file stays on disk. -/
theorem claim_C10 (libs : Libs) (s : ByteStream) (w : World)
    (h : pyFalsy (lookupStr "MISTRAL_API_KEY" w.env) = true) :
    parse_with_mistral libs s w =
      (.ok "Mistral API key is not set in environment variables.",
       { s with pos := s.data.length },
       { w with tmpFiles := w.tmpFiles ++ [(freshTmpName w, s.data.drop s.pos)] }) ∧
    (ByteStream.read { s with pos := s.data.length }).1 = [] := by
  constructor
  · simp [parse_with_mistral, writeTemp, ByteStream.read, h]
  · simp [ByteStream.read]

/-- Witness for C10: concrete run with no environment at all. -/
theorem claim_C10_witness :
    pyFalsy (lookupStr "MISTRAL_API_KEY" W0.env) = true ∧
    parse_with_mistral L0 ⟨[9, 9], 0⟩ W0 =
      (.ok "Mistral API key is not set in environment variables.",
       ⟨[9, 9], 2⟩, ⟨[], [("/tmp/tmp0.pdf", [9, 9])], [], []⟩) :=
  ⟨by decide, ((claim_C10 L0 ⟨[9, 9], 0⟩ W0 (by decide)).1).trans (by decide)⟩

/-! ### The cache round trip -/

theorem lookupStr_cons_self {α : Type} (k : String) (v : α) (l : List (String × α)) :
    lookupStr k ((k, v) :: l) = some v := by
  simp [lookupStr]

/-- Claim C1: `get_cached_conversion` is a memoizing round trip.
(a) a cache hit returns the file contents verbatim, with no invocation of
the parsing function and no state change; (b) if the parsing function
raises (and itself leaves the cache directory alone, as all four adapters
do), no cache file is written; (c) after a successful first call, the
result is persisted under the cache key and a second call with the same
key returns the same value without invoking the parsing function again —
so the function is computed at most once across the two calls. -/
theorem claim_C1 (libs : Libs) (w : World) (path slug : String) (parseFn : Adapter) :
    (∀ c, lookupStr (get_cache_filename path slug) w.cacheFiles = some c →
      get_cached_conversion libs w path slug parseFn = (.ok c, w, false)) ∧
    ((∀ l s ω, ((parseFn l s ω).2.2).cacheFiles = ω.cacheFiles) →
      ∀ e, (get_cached_conversion libs w path slug parseFn).1 = .exn e →
        (get_cached_conversion libs w path slug parseFn).2.1.cacheFiles = w.cacheFiles) ∧
    (∀ v, (get_cached_conversion libs w path slug parseFn).1 = .ok v →
      lookupStr (get_cache_filename path slug)
          ((get_cached_conversion libs w path slug parseFn).2.1).cacheFiles = some v ∧
      get_cached_conversion libs ((get_cached_conversion libs w path slug parseFn).2.1)
          path slug parseFn
        = (.ok v, (get_cached_conversion libs w path slug parseFn).2.1, false)) := by
  rcases h1 : lookupStr (get_cache_filename path slug) w.cacheFiles with _ | c
  case some =>
    have hfirst : get_cached_conversion libs w path slug parseFn = (.ok c, w, false) := by
      simp only [get_cached_conversion, h1]
    refine ⟨fun c' hc' => ?_, fun _ e he => ?_, fun v hv => ?_⟩
    · obtain rfl : c = c' := by injection hc'
      exact hfirst
    · rw [hfirst] at he
      cases he
    · rw [hfirst] at hv
      obtain rfl : c = v := by injection hv
      rw [hfirst]
      exact ⟨h1, hfirst⟩
  case none =>
    rcases h2 : lookupStr path w.exampleFiles with _ | bytes
    case none =>
      have hfirst : get_cached_conversion libs w path slug parseFn
          = (.exn ("FileNotFoundError: " ++ path), w, false) := by
        simp only [get_cached_conversion, h1, h2]
      refine ⟨fun c' hc' => ?_, fun _ e he => ?_, fun v hv => ?_⟩
      · simp at hc'
      · rw [hfirst]
      · rw [hfirst] at hv
        cases hv
    case some =>
      rcases h3 : parseFn libs ⟨bytes, 0⟩ w with ⟨r, s', w'⟩
      cases r with
      | exn e' =>
        have hfirst : get_cached_conversion libs w path slug parseFn
            = (.exn e', w', true) := by
          simp only [get_cached_conversion, h1, h2, h3]
        refine ⟨fun c' hc' => ?_, fun hpres e he => ?_, fun v hv => ?_⟩
        · simp at hc'
        · rw [hfirst]
          have hw := hpres libs ⟨bytes, 0⟩ w
          rw [h3] at hw
          exact hw
        · rw [hfirst] at hv
          cases hv
      | ok t =>
        have hfirst : get_cached_conversion libs w path slug parseFn
            = (.ok t,
               { w' with cacheFiles :=
                   (get_cache_filename path slug, t) :: w'.cacheFiles },
               true) := by
          simp only [get_cached_conversion, h1, h2, h3]
        refine ⟨fun c' hc' => ?_, fun _ e he => ?_, fun v hv => ?_⟩
        · simp at hc'
        · rw [hfirst] at he
          cases he
        · rw [hfirst] at hv
          obtain rfl : t = v := by injection hv
          rw [hfirst]
          refine ⟨lookupStr_cons_self _ _ _, ?_⟩
          simp only [get_cached_conversion, lookupStr_cons_self]

/-- Witness for C1 at a concrete state: a first (cache-missing) call on
the bundled example persists its result, and the second call returns the
same value from the cache without recomputing. -/
theorem claim_C1_witness :
    (get_cached_conversion L0 W1 "examples/Ocr.pdf" "pytesseract" parse_with_pytesseract).1
      = .ok "### Page 1\nhi\n\n" ∧
    lookupStr (get_cache_filename "examples/Ocr.pdf" "pytesseract")
        ((get_cached_conversion L0 W1 "examples/Ocr.pdf" "pytesseract"
            parse_with_pytesseract).2.1).cacheFiles
      = some "### Page 1\nhi\n\n" ∧
    get_cached_conversion L0
        ((get_cached_conversion L0 W1 "examples/Ocr.pdf" "pytesseract"
            parse_with_pytesseract).2.1)
        "examples/Ocr.pdf" "pytesseract" parse_with_pytesseract
      = (.ok "### Page 1\nhi\n\n",
         (get_cached_conversion L0 W1 "examples/Ocr.pdf" "pytesseract"
            parse_with_pytesseract).2.1,
         false) :=
  ⟨by decide,
   (claim_C1 L0 W1 "examples/Ocr.pdf" "pytesseract" parse_with_pytesseract).2.2
     "### Page 1\nhi\n\n" (by decide)⟩

/-! ### Evaluation lemmas for the adapters and the method loops -/

theorem pytess_eq (libs : Libs) (s : ByteStream) (w : World) (imgs : List Nat)
    (h : libs.rasterize (s.data.drop s.pos) = .ok imgs) :
    parse_with_pytesseract libs s w
      = (.ok (ocrConcat libs.image_to_string imgs), { s with pos := s.data.length },
         { w with tmpFiles := w.tmpFiles ++ [(freshTmpName w, s.data.drop s.pos)] }) := by
  simp [parse_with_pytesseract, writeTemp, ByteStream.read, h]

theorem docling_eq (libs : Libs) (s : ByteStream) (w : World) :
    parse_with_docling libs s w
      = (libs.docling_convert (s.data.drop s.pos), { s with pos := s.data.length },
         { w with tmpFiles := w.tmpFiles ++ [(freshTmpName w, s.data.drop s.pos)] }) := by
  simp [parse_with_docling, writeTemp, ByteStream.read]

theorem pymupdf_eq (libs : Libs) (s : ByteStream) (w : World) :
    parse_with_pymupdf libs s w
      = (libs.pymupdf_to_markdown (s.data.drop s.pos), { s with pos := s.data.length },
         { w with tmpFiles := w.tmpFiles ++ [(freshTmpName w, s.data.drop s.pos)] }) := by
  simp [parse_with_pymupdf, writeTemp, ByteStream.read]

theorem mistral_sentinel_eq (libs : Libs) (s : ByteStream) (w : World)
    (h : pyFalsy (lookupStr "MISTRAL_API_KEY" w.env) = true) :
    parse_with_mistral libs s w
      = (.ok "Mistral API key is not set in environment variables.",
         { s with pos := s.data.length },
         { w with tmpFiles := w.tmpFiles ++ [(freshTmpName w, s.data.drop s.pos)] }) := by
  simp [parse_with_mistral, writeTemp, ByteStream.read, h]

theorem rmU_nil (libs : Libs) (b : Bytes) (w : World) :
    runMethodsUploaded libs b w [] = ([], w, none) := rfl

theorem rmU_cons_ok (libs : Libs) (b : Bytes) (w : World) (name : String)
    (p : Adapter) (rest : List (String × Adapter)) (t : String)
    (s' : ByteStream) (w' : World) (h : p libs ⟨b, 0⟩ w = (.ok t, s', w')) :
    runMethodsUploaded libs b w ((name, p) :: rest)
      = ((name, Entry.text t) :: (runMethodsUploaded libs b w' rest).1,
         (runMethodsUploaded libs b w' rest).2.1,
         (runMethodsUploaded libs b w' rest).2.2) := by
  rcases hx : runMethodsUploaded libs b w' rest with ⟨es, w2, err⟩
  simp [runMethodsUploaded, h, hx]

theorem rmU_cons_exn (libs : Libs) (b : Bytes) (w : World) (name : String)
    (p : Adapter) (rest : List (String × Adapter)) (e : String)
    (s' : ByteStream) (w' : World) (h : p libs ⟨b, 0⟩ w = (.exn e, s', w')) :
    runMethodsUploaded libs b w ((name, p) :: rest) = ([], w', some e) := by
  simp [runMethodsUploaded, h]

theorem rmE_nil (libs : Libs) (path : String) (w : World) :
    runMethodsExample libs path w [] = ([], w, none) := rfl

theorem rmE_cons_ok (libs : Libs) (path : String) (w : World) (name : String)
    (p : Adapter) (slug : String) (rest : List (String × Adapter × String))
    (t : String) (w' : World) (inv : Bool)
    (h : get_cached_conversion libs w path slug p = (.ok t, w', inv)) :
    runMethodsExample libs path w ((name, p, slug) :: rest)
      = ((name, Entry.text t) :: (runMethodsExample libs path w' rest).1,
         (runMethodsExample libs path w' rest).2.1,
         (runMethodsExample libs path w' rest).2.2) := by
  rcases hx : runMethodsExample libs path w' rest with ⟨es, w2, err⟩
  simp [runMethodsExample, h, hx]

theorem rmE_cons_exn (libs : Libs) (path : String) (w : World) (name : String)
    (p : Adapter) (slug : String) (rest : List (String × Adapter × String))
    (e : String) (w' : World) (inv : Bool)
    (h : get_cached_conversion libs w path slug p = (.exn e, w', inv)) :
    runMethodsExample libs path w ((name, p, slug) :: rest) = ([], w', some e) := by
  simp [runMethodsExample, h]

/-- Claim C2: with `MISTRAL_API_KEY` unset (falsy), the mistral adapter
returns the non-empty sentinel string instead of raising, for every input
document; and (provided the other three libraries succeed, as in the
claim's scenario) the orchestrator still produces a complete result set
with all five entries, the mistral entry being the sentinel. -/
theorem claim_C2 (libs : Libs) (w : World) (sess : Session) (s : ByteStream)
    (b : Bytes) (ch : Bool)
    (henv : pyFalsy (lookupStr "MISTRAL_API_KEY" w.env) = true)
    (hb : b ≠ []) (hsess : sess.uploadedResults = none)
    (hr : ∃ i, libs.rasterize b = .ok i)
    (hd : ∃ t, libs.docling_convert b = .ok t)
    (hp : ∃ t, libs.pymupdf_to_markdown b = .ok t) :
    ((parse_with_mistral libs s w).1
        = .ok "Mistral API key is not set in environment variables." ∧
      "Mistral API key is not set in environment variables." ≠ "") ∧
    (runScript libs w sess (some b) ch).res = .ok () ∧
    ∃ r, (runScript libs w sess (some b) ch).session.uploadedResults = some r ∧
      r.map Prod.fst = fiveNames ∧
      lookupStr "Mistral OCR" r
        = some (.text "Mistral API key is not set in environment variables.") := by
  obtain ⟨i, hi⟩ := hr
  obtain ⟨t2, h2⟩ := hd
  obtain ⟨t3, h3⟩ := hp
  refine ⟨⟨by rw [mistral_sentinel_eq libs s w henv], by decide⟩, ?_⟩
  have e1 : parse_with_pytesseract libs ⟨b, 0⟩ w
      = (.ok (ocrConcat libs.image_to_string i), ⟨b, b.length⟩,
         { w with tmpFiles := w.tmpFiles ++ [(freshTmpName w, b)] }) := by
    simp [pytess_eq libs ⟨b, 0⟩ w i (by simpa using hi)]
  simp only [runScript]
  rw [if_neg hb]
  simp only [processUploaded, hsess, uploadedMethods]
  rw [rmU_cons_ok libs b w _ parse_with_pytesseract _ _ _ _ e1]
  set w1 : World := { w with tmpFiles := w.tmpFiles ++ [(freshTmpName w, b)] } with hw1
  have e2 : parse_with_docling libs ⟨b, 0⟩ w1
      = (.ok t2, ⟨b, b.length⟩,
         { w1 with tmpFiles := w1.tmpFiles ++ [(freshTmpName w1, b)] }) := by
    simp [docling_eq, h2]
  rw [rmU_cons_ok libs b w1 _ parse_with_docling _ _ _ _ e2]
  set w2 : World := { w1 with tmpFiles := w1.tmpFiles ++ [(freshTmpName w1, b)] } with hw2
  have e3 : parse_with_pymupdf libs ⟨b, 0⟩ w2
      = (.ok t3, ⟨b, b.length⟩,
         { w2 with tmpFiles := w2.tmpFiles ++ [(freshTmpName w2, b)] }) := by
    simp [pymupdf_eq, h3]
  rw [rmU_cons_ok libs b w2 _ parse_with_pymupdf _ _ _ _ e3]
  set w3 : World := { w2 with tmpFiles := w2.tmpFiles ++ [(freshTmpName w2, b)] } with hw3
  have henv3 : pyFalsy (lookupStr "MISTRAL_API_KEY" w3.env) = true := by
    rw [hw3, hw2, hw1]
    exact henv
  have e4 : parse_with_mistral libs ⟨b, 0⟩ w3
      = (.ok "Mistral API key is not set in environment variables.", ⟨b, b.length⟩,
         { w3 with tmpFiles := w3.tmpFiles ++ [(freshTmpName w3, b)] }) := by
    rw [mistral_sentinel_eq libs ⟨b, 0⟩ w3 henv3]
    simp
  rw [rmU_cons_ok libs b w3 _ parse_with_mistral _ _ _ _ e4]
  rw [rmU_nil]
  refine ⟨by simp [finishDisplay, lookupStr], ?_⟩
  refine ⟨[("Pytesseract OCR", .text (ocrConcat libs.image_to_string i)),
           ("Docling Conversion", .text t2),
           ("PyMuPDF Conversion", .text t3),
           ("Mistral OCR", .text "Mistral API key is not set in environment variables."),
           ("Original Document", .doc b)], ?_, ?_, ?_⟩
  · simp [finishDisplay, lookupStr]
  · simp [fiveNames, methodNames4]
  · simp [lookupStr]

/-- Witness for C2: concrete run with an empty environment and libraries
whose other three methods succeed. -/
theorem claim_C2_witness :
    ((parse_with_mistral L0 ⟨[2], 0⟩ W0).1
        = .ok "Mistral API key is not set in environment variables." ∧
      "Mistral API key is not set in environment variables." ≠ "") ∧
    (runScript L0 W0 ⟨none, []⟩ (some [1]) true).res = .ok () ∧
    ∃ r, (runScript L0 W0 ⟨none, []⟩ (some [1]) true).session.uploadedResults = some r ∧
      r.map Prod.fst = fiveNames ∧
      lookupStr "Mistral OCR" r
        = some (.text "Mistral API key is not set in environment variables.") :=
  claim_C2 L0 W0 ⟨none, []⟩ ⟨[2], 0⟩ [1] true (by decide) (by decide) rfl
    ⟨[7], rfl⟩ ⟨"docling out", rfl⟩ ⟨"pymupdf out", rfl⟩

/-- Claim C5 counterexample: a method that raises does abort the whole
run — with a docling conversion that raises, the script run ends with the
exception, the display is the aborted state, and the session holds only
the partial result set (the failing method has no error-text entry, and
the later methods never ran). -/
theorem claim_C5_counterexample :
    (runScript LBad W0 ⟨none, []⟩ (some [0]) true).display = Display.aborted ∧
    (runScript LBad W0 ⟨none, []⟩ (some [0]) true).res = PyResult.exn "docling boom" ∧
    (runScript LBad W0 ⟨none, []⟩ (some [0]) true).session.uploadedResults
      = some [("Pytesseract OCR", Entry.text "### Page 1\nhi\n\n")] := by
  decide

/-- Claim C5 as amended: the orchestrator runs the methods sequentially in
a fixed order and only a method that *returns* error text (like the
missing-credential cloud call) contributes that text as its entry; a
method that *raises* aborts the entire script run, leaving the session
with only the entries computed before the failure. -/
theorem claim_C5_amended (libs : Libs) (w : World) (sess : Session) (b : Bytes)
    (e : String) (ch : Bool)
    (hb : b ≠ []) (hsess : sess.uploadedResults = none)
    (hr : ∃ i, libs.rasterize b = .ok i)
    (hd : libs.docling_convert b = .exn e) :
    (runScript libs w sess (some b) ch).res = .exn e ∧
    (runScript libs w sess (some b) ch).display = .aborted ∧
    ∃ t, (runScript libs w sess (some b) ch).session.uploadedResults
        = some [("Pytesseract OCR", Entry.text t)] := by
  obtain ⟨i, hi⟩ := hr
  have e1 : parse_with_pytesseract libs ⟨b, 0⟩ w
      = (.ok (ocrConcat libs.image_to_string i), ⟨b, b.length⟩,
         { w with tmpFiles := w.tmpFiles ++ [(freshTmpName w, b)] }) := by
    simp [pytess_eq libs ⟨b, 0⟩ w i (by simpa using hi)]
  simp only [runScript]
  rw [if_neg hb]
  simp only [processUploaded, hsess, uploadedMethods]
  rw [rmU_cons_ok libs b w _ parse_with_pytesseract _ _ _ _ e1]
  set w1 : World := { w with tmpFiles := w.tmpFiles ++ [(freshTmpName w, b)] } with hw1
  have e2 : parse_with_docling libs ⟨b, 0⟩ w1
      = (.exn e, ⟨b, b.length⟩,
         { w1 with tmpFiles := w1.tmpFiles ++ [(freshTmpName w1, b)] }) := by
    simp [docling_eq, hd]
  rw [rmU_cons_exn libs b w1 _ parse_with_docling _ _ _ _ e2]
  exact ⟨rfl, rfl, ⟨ocrConcat libs.image_to_string i, rfl⟩⟩

/-- Witness for the amended C5 at a concrete failing library. -/
theorem claim_C5_amended_witness :
    (runScript LBad W0 ⟨none, []⟩ (some [3]) false).res = .exn "docling boom" ∧
    (runScript LBad W0 ⟨none, []⟩ (some [3]) false).display = .aborted ∧
    ∃ t, (runScript LBad W0 ⟨none, []⟩ (some [3]) false).session.uploadedResults
        = some [("Pytesseract OCR", Entry.text t)] :=
  claim_C5_amended LBad W0 ⟨none, []⟩ [3] "docling boom" false (by decide) rfl
    ⟨[7], rfl⟩ rfl

/-- Claim C9: with no upload and a missing example file, the script run
completes without an unhandled fault, shows the file-not-found notice
(plus the upload prompt), produces no result set, and leaves both the
session and the process state untouched. -/
theorem claim_C9 (libs : Libs) (w : World) (sess : Session) (ch : Bool)
    (h : lookupStr (examplePathOf ch) w.exampleFiles = none) :
    runScript libs w sess none ch =
      ⟨.ok (), w, sess,
       [.sidebarError ("Example file not found: " ++ examplePathOf ch),
        .info promptMsg],
       .prompt⟩ := by
  simp [runScript, h]

/-- Witness for C9: empty filesystem, OCR example selected. -/
theorem claim_C9_witness :
    runScript L0 W0 ⟨none, []⟩ none true =
      ⟨.ok (), W0, ⟨none, []⟩,
       [.sidebarError ("Example file not found: " ++ examplePathOf true),
        .info promptMsg],
       .prompt⟩ :=
  claim_C9 L0 W0 ⟨none, []⟩ true rfl

/-! ### Invariant: a result set is only ever exposed when complete -/

theorem lookupStr_some_mem {α : Type} {k : String} {v : α}
    {l : List (String × α)} (h : lookupStr k l = some v) : k ∈ l.map Prod.fst := by
  induction l with
  | nil => cases h
  | cons head rest ih =>
    obtain ⟨k', v'⟩ := head
    simp only [lookupStr] at h
    split at h
    · rename_i hk
      simp [hk]
    · simp [ih h]

theorem rmU_names (libs : Libs) (b : Bytes) :
    ∀ (ms : List (String × Adapter)) (w : World) (es : Results) (w' : World)
      (err : Option String),
      runMethodsUploaded libs b w ms = (es, w', err) →
      (∀ n ∈ es.map Prod.fst, n ∈ ms.map Prod.fst) ∧
      (err = none → es.map Prod.fst = ms.map Prod.fst) := by
  intro ms
  induction ms with
  | nil =>
    intro w es w' err h
    rw [rmU_nil] at h
    simp only [Prod.mk.injEq] at h
    obtain ⟨rfl, rfl, rfl⟩ := h
    exact ⟨fun n hn => (nomatch hn), fun _ => rfl⟩
  | cons head rest ih =>
    intro w es w' err h
    obtain ⟨name, p⟩ := head
    rcases hq : p libs ⟨b, 0⟩ w with ⟨r, s', wq⟩
    cases r with
    | exn e =>
      rw [rmU_cons_exn libs b w name p rest e s' wq hq] at h
      simp only [Prod.mk.injEq] at h
      obtain ⟨rfl, rfl, rfl⟩ := h
      exact ⟨fun n hn => (nomatch hn), fun hn => (nomatch hn)⟩
    | ok t =>
      rcases hx : runMethodsUploaded libs b wq rest with ⟨es2, w2, err2⟩
      rw [rmU_cons_ok libs b w name p rest t s' wq hq, hx] at h
      simp only [Prod.mk.injEq] at h
      obtain ⟨rfl, rfl, rfl⟩ := h
      obtain ⟨ih1, ih2⟩ := ih wq es2 w2 err2 hx
      constructor
      · intro n hn
        simp only [List.map_cons, List.mem_cons] at hn ⊢
        rcases hn with rfl | hn
        · exact Or.inl rfl
        · exact Or.inr (ih1 n hn)
      · intro hnone
        simp only [List.map_cons]
        rw [ih2 hnone]

theorem rmE_names (libs : Libs) (path : String) :
    ∀ (ms : List (String × Adapter × String)) (w : World) (es : Results)
      (w' : World) (err : Option String),
      runMethodsExample libs path w ms = (es, w', err) →
      (∀ n ∈ es.map Prod.fst, n ∈ ms.map Prod.fst) ∧
      (err = none → es.map Prod.fst = ms.map Prod.fst) := by
  intro ms
  induction ms with
  | nil =>
    intro w es w' err h
    rw [rmE_nil] at h
    simp only [Prod.mk.injEq] at h
    obtain ⟨rfl, rfl, rfl⟩ := h
    exact ⟨fun n hn => (nomatch hn), fun _ => rfl⟩
  | cons head rest ih =>
    intro w es w' err h
    obtain ⟨name, p, slug⟩ := head
    rcases hq : get_cached_conversion libs w path slug p with ⟨r, wq, inv⟩
    cases r with
    | exn e =>
      rw [rmE_cons_exn libs path w name p slug rest e wq inv hq] at h
      simp only [Prod.mk.injEq] at h
      obtain ⟨rfl, rfl, rfl⟩ := h
      exact ⟨fun n hn => (nomatch hn), fun hn => (nomatch hn)⟩
    | ok t =>
      rcases hx : runMethodsExample libs path wq rest with ⟨es2, w2, err2⟩
      rw [rmE_cons_ok libs path w name p slug rest t wq inv hq, hx] at h
      simp only [Prod.mk.injEq] at h
      obtain ⟨rfl, rfl, rfl⟩ := h
      obtain ⟨ih1, ih2⟩ := ih wq es2 w2 err2 hx
      constructor
      · intro n hn
        simp only [List.map_cons, List.mem_cons] at hn ⊢
        rcases hn with rfl | hn
        · exact Or.inl rfl
        · exact Or.inr (ih1 n hn)
      · intro hnone
        simp only [List.map_cons]
        rw [ih2 hnone]

/-- A stored result set is sound when it can only be seen with the
`"Original Document"` entry present if it is the complete five-entry set
(in insertion order). -/
def GoodResults (r : Results) : Prop :=
  lookupStr "Original Document" r ≠ none → r.map Prod.fst = fiveNames

/-- Every result set stored anywhere in the session is sound. -/
def GoodSession (sess : Session) : Prop :=
  (∀ r, sess.uploadedResults = some r → GoodResults r) ∧
  (∀ k r, lookupStr k sess.stored = some r → GoodResults r)

theorem partialGood (es : Results)
    (hsub : ∀ n ∈ es.map Prod.fst, n ∈ methodNames4) : GoodResults es := by
  intro hlook
  exfalso
  cases hl : lookupStr "Original Document" es with
  | none => exact hlook hl
  | some v =>
    have hmem := hsub _ (lookupStr_some_mem hl)
    simp [methodNames4] at hmem

theorem completeGood (es : Results) (b : Bytes)
    (h : es.map Prod.fst = methodNames4) :
    GoodResults (es ++ [("Original Document", Entry.doc b)]) ∧
    (es ++ [("Original Document", Entry.doc b)]).map Prod.fst = fiveNames := by
  have hm : (es ++ [("Original Document", Entry.doc b)]).map Prod.fst = fiveNames := by
    simp [fiveNames, h]
  exact ⟨fun _ => hm, hm⟩

theorem finishDisplay_spec (res : Results) (w : World) (sess : Session)
    (msgs : List Msg) :
    (finishDisplay res w sess msgs).session = sess ∧
    (finishDisplay res w sess msgs).res = .ok () ∧
    ∀ opts, (finishDisplay res w sess msgs).display = .selector opts →
      (lookupStr "Original Document" res ≠ none ∧ opts = res.map Prod.fst) := by
  unfold finishDisplay
  split
  · exact ⟨rfl, rfl, fun opts h => nomatch h⟩
  · rename_i hsome
    refine ⟨rfl, rfl, fun opts h => ⟨?_, ?_⟩⟩
    · simpa [Option.isNone_iff_eq_none] using hsome
    · cases h
      rfl

theorem processUploaded_some (libs : Libs) (w : World) (sess : Session)
    (b : Bytes) (msgs : List Msg) (res : Results)
    (h : sess.uploadedResults = some res) :
    processUploaded libs w sess b msgs = finishDisplay res w sess msgs := by
  simp only [processUploaded, h]

theorem processUploaded_none_exn (libs : Libs) (w : World) (sess : Session)
    (b : Bytes) (msgs : List Msg) (es : Results) (w' : World) (e : String)
    (h : sess.uploadedResults = none)
    (hrm : runMethodsUploaded libs b w uploadedMethods = (es, w', some e)) :
    processUploaded libs w sess b msgs
      = ⟨.exn e, w', { sess with uploadedResults := some es }, msgs, .aborted⟩ := by
  simp only [processUploaded, h, hrm]

theorem processUploaded_none_ok (libs : Libs) (w : World) (sess : Session)
    (b : Bytes) (msgs : List Msg) (es : Results) (w' : World)
    (h : sess.uploadedResults = none)
    (hrm : runMethodsUploaded libs b w uploadedMethods = (es, w', none)) :
    processUploaded libs w sess b msgs
      = finishDisplay (es ++ [("Original Document", .doc b)]) w'
          { sess with uploadedResults := some (es ++ [("Original Document", .doc b)]) }
          msgs := by
  simp only [processUploaded, h, hrm]

theorem processExample_stored (libs : Libs) (w : World) (sess : Session)
    (path choiceName : String) (b : Bytes) (msgs : List Msg) (res : Results)
    (h : lookupStr
        ("results_example_" ++ choiceName.map (fun c => if c = ' ' then '_' else c))
        sess.stored = some res) :
    processExample libs w sess path choiceName b msgs
      = finishDisplay res w sess msgs := by
  simp only [processExample, h]

theorem processExample_new_exn (libs : Libs) (w : World) (sess : Session)
    (path choiceName : String) (b : Bytes) (msgs : List Msg) (es : Results)
    (w' : World) (e : String)
    (h : lookupStr
        ("results_example_" ++ choiceName.map (fun c => if c = ' ' then '_' else c))
        sess.stored = none)
    (hrm : runMethodsExample libs path w exampleMethods = (es, w', some e)) :
    processExample libs w sess path choiceName b msgs
      = ⟨.exn e, w',
         { sess with stored :=
             ("results_example_" ++ choiceName.map (fun c => if c = ' ' then '_' else c),
              es) :: sess.stored },
         msgs, .aborted⟩ := by
  simp only [processExample, h, hrm]

theorem processExample_new_ok (libs : Libs) (w : World) (sess : Session)
    (path choiceName : String) (b : Bytes) (msgs : List Msg) (es : Results)
    (w' : World)
    (h : lookupStr
        ("results_example_" ++ choiceName.map (fun c => if c = ' ' then '_' else c))
        sess.stored = none)
    (hrm : runMethodsExample libs path w exampleMethods = (es, w', none)) :
    processExample libs w sess path choiceName b msgs
      = finishDisplay (es ++ [("Original Document", .doc b)]) w'
          { sess with stored :=
              ("results_example_" ++ choiceName.map (fun c => if c = ' ' then '_' else c),
               es ++ [("Original Document", .doc b)]) :: sess.stored }
          msgs := by
  simp only [processExample, h, hrm]

theorem runScript_uploaded (libs : Libs) (w : World) (sess : Session)
    (b : Bytes) (ch : Bool) (hb : b ≠ []) :
    runScript libs w sess (some b) ch
      = processUploaded libs w sess b [.sidebarSuccess "PDF uploaded successfully!"] := by
  simp only [runScript]
  rw [if_neg hb]

theorem runScript_example (libs : Libs) (w : World) (sess : Session)
    (ch : Bool) (b : Bytes)
    (hex : lookupStr (examplePathOf ch) w.exampleFiles = some b) (hb : b ≠ []) :
    runScript libs w sess none ch
      = processExample libs w sess (examplePathOf ch) (exampleChoiceName ch) b
          [.sidebarInfo ("Using " ++ exampleChoiceName ch)] := by
  simp only [runScript, hex]
  rw [if_neg hb]

theorem processUploaded_good (libs : Libs) (w : World) (sess : Session)
    (b : Bytes) (msgs : List Msg) (h : GoodSession sess) :
    GoodSession (processUploaded libs w sess b msgs).session ∧
    ∀ opts, (processUploaded libs w sess b msgs).display = .selector opts →
      opts = fiveNames := by
  obtain ⟨hu, hs⟩ := h
  cases hur : sess.uploadedResults with
  | some res =>
    rw [processUploaded_some libs w sess b msgs res hur]
    obtain ⟨hsess', _, hdisp'⟩ := finishDisplay_spec res w sess msgs
    refine ⟨?_, ?_⟩
    · rw [hsess']; exact ⟨hu, hs⟩
    · intro opts hopts
      obtain ⟨hln, hoeq⟩ := hdisp' opts hopts
      rw [hoeq]
      exact hu res hur hln
  | none =>
    rcases hrm : runMethodsUploaded libs b w uploadedMethods with ⟨es, w', err⟩
    obtain ⟨hsub, hcomp⟩ := rmU_names libs b uploadedMethods w es w' err hrm
    have hsub4 : ∀ n ∈ es.map Prod.fst, n ∈ methodNames4 := by
      intro n hn
      have := hsub n hn
      simpa [uploadedMethods, methodNames4] using this
    cases err with
    | some e =>
      rw [processUploaded_none_exn libs w sess b msgs es w' e hur hrm]
      refine ⟨⟨?_, ?_⟩, fun opts hopts => by simp at hopts⟩
      · intro r hr'
        obtain rfl : es = r := by simpa using hr'
        exact partialGood es hsub4
      · intro k r hk
        exact hs k r (by simpa using hk)
    | none =>
      have hm4 : es.map Prod.fst = methodNames4 := by
        rw [hcomp rfl]
        simp [uploadedMethods, methodNames4]
      obtain ⟨hgood, hm5⟩ := completeGood es b hm4
      rw [processUploaded_none_ok libs w sess b msgs es w' hur hrm]
      obtain ⟨hsess', _, hdisp'⟩ := finishDisplay_spec
        (es ++ [("Original Document", .doc b)]) w'
        { sess with uploadedResults := some (es ++ [("Original Document", .doc b)]) }
        msgs
      refine ⟨?_, ?_⟩
      · rw [hsess']
        refine ⟨?_, ?_⟩
        · intro r hr'
          obtain rfl : es ++ [("Original Document", Entry.doc b)] = r := by
            simpa using hr'
          exact hgood
        · intro k r hk
          exact hs k r (by simpa using hk)
      · intro opts hopts
        obtain ⟨_, hoeq⟩ := hdisp' opts hopts
        rw [hoeq]
        exact hm5

theorem processExample_good (libs : Libs) (w : World) (sess : Session)
    (path choiceName : String) (b : Bytes) (msgs : List Msg)
    (h : GoodSession sess) :
    GoodSession (processExample libs w sess path choiceName b msgs).session ∧
    ∀ opts, (processExample libs w sess path choiceName b msgs).display
        = .selector opts → opts = fiveNames := by
  obtain ⟨hu, hs⟩ := h
  cases hst : lookupStr
      ("results_example_" ++ choiceName.map (fun c => if c = ' ' then '_' else c))
      sess.stored with
  | some res =>
    rw [processExample_stored libs w sess path choiceName b msgs res hst]
    obtain ⟨hsess', _, hdisp'⟩ := finishDisplay_spec res w sess msgs
    refine ⟨?_, ?_⟩
    · rw [hsess']; exact ⟨hu, hs⟩
    · intro opts hopts
      obtain ⟨hln, hoeq⟩ := hdisp' opts hopts
      rw [hoeq]
      exact hs _ res hst hln
  | none =>
    rcases hrm : runMethodsExample libs path w exampleMethods with ⟨es, w', err⟩
    obtain ⟨hsub, hcomp⟩ := rmE_names libs path exampleMethods w es w' err hrm
    have hsub4 : ∀ n ∈ es.map Prod.fst, n ∈ methodNames4 := by
      intro n hn
      have := hsub n hn
      simpa [exampleMethods, methodNames4] using this
    cases err with
    | some e =>
      rw [processExample_new_exn libs w sess path choiceName b msgs es w' e hst hrm]
      refine ⟨⟨?_, ?_⟩, fun opts hopts => by simp at hopts⟩
      · intro r hr'
        exact hu r (by simpa using hr')
      · intro k r hk
        simp only [lookupStr] at hk
        split at hk
        · obtain rfl : es = r := by simpa using hk
          exact partialGood es hsub4
        · exact hs k r (by simpa using hk)
    | none =>
      have hm4 : es.map Prod.fst = methodNames4 := by
        rw [hcomp rfl]
        simp [exampleMethods, methodNames4]
      obtain ⟨hgood, hm5⟩ := completeGood es b hm4
      rw [processExample_new_ok libs w sess path choiceName b msgs es w' hst hrm]
      obtain ⟨hsess', _, hdisp'⟩ := finishDisplay_spec
        (es ++ [("Original Document", .doc b)]) w'
        { sess with stored :=
            ("results_example_" ++ choiceName.map (fun c => if c = ' ' then '_' else c),
             es ++ [("Original Document", .doc b)]) :: sess.stored }
        msgs
      refine ⟨?_, ?_⟩
      · rw [hsess']
        refine ⟨?_, ?_⟩
        · intro r hr'
          exact hu r (by simpa using hr')
        · intro k r hk
          simp only [lookupStr] at hk
          split at hk
          · obtain rfl : es ++ [("Original Document", Entry.doc b)] = r := by
              simpa using hk
            exact hgood
          · exact hs k r (by simpa using hk)
      · intro opts hopts
        obtain ⟨_, hoeq⟩ := hdisp' opts hopts
        rw [hoeq]
        exact hm5

theorem step_good (libs : Libs) (w : World) (sess : Session)
    (up : Option Bytes) (ch : Bool) (h : GoodSession sess) :
    GoodSession (runScript libs w sess up ch).session ∧
    ∀ opts, (runScript libs w sess up ch).display = .selector opts →
      opts = fiveNames := by
  cases up with
  | some b =>
    by_cases hb : b = []
    · subst hb
      have hout : runScript libs w sess (some []) ch
          = ⟨.ok (), w, sess,
             [.sidebarSuccess "PDF uploaded successfully!", .info promptMsg],
             .prompt⟩ := by
        simp [runScript]
      rw [hout]
      exact ⟨h, fun opts hopts => by simp at hopts⟩
    · rw [runScript_uploaded libs w sess b ch hb]
      exact processUploaded_good libs w sess b _ h
  | none =>
    cases hex : lookupStr (examplePathOf ch) w.exampleFiles with
    | none =>
      have hout : runScript libs w sess none ch
          = ⟨.ok (), w, sess,
             [.sidebarError ("Example file not found: " ++ examplePathOf ch),
              .info promptMsg],
             .prompt⟩ := by
        simp [runScript, hex]
      rw [hout]
      exact ⟨h, fun opts hopts => by simp at hopts⟩
    | some b =>
      by_cases hb : b = []
      · have hout : runScript libs w sess none ch
            = ⟨.ok (), w, sess,
               [.sidebarInfo ("Using " ++ exampleChoiceName ch), .info promptMsg],
               .prompt⟩ := by
          simp [runScript, hex, hb]
        rw [hout]
        exact ⟨h, fun opts hopts => by simp at hopts⟩
      · rw [runScript_example libs w sess ch b hex hb]
        exact processExample_good libs w sess _ _ b _ h

theorem reachable_good : ∀ sess, ReachableSession sess → GoodSession sess := by
  intro sess h
  induction h with
  | init => exact ⟨fun r hr => (nomatch hr), fun k r hk => (nomatch hk)⟩
  | step libs w sess up ch _ ih => exact (step_good libs w sess up ch ih).1

/-- Claim C6: all-or-nothing visibility.  In every session state reachable
from the initial one, a stored result set that contains the
`"Original Document"` entry is the complete five-entry set; and whenever a
script run exposes the method selector, its options are exactly the five
entries (four methods plus the original document) — a partially computed
set is never selectable. -/
theorem claim_C6 :
    (∀ sess, ReachableSession sess → GoodSession sess) ∧
    (∀ (libs : Libs) (w : World) (sess : Session) (up : Option Bytes) (ch : Bool),
      ReachableSession sess →
      ∀ opts, (runScript libs w sess up ch).display = .selector opts →
        opts = fiveNames) :=
  ⟨reachable_good,
   fun libs w sess up ch hreach opts hopts =>
     (step_good libs w sess up ch (reachable_good sess hreach)).2 opts hopts⟩

/-- Witness for C6: from the initial session, a concrete successful run
exposes the selector with exactly the five entries. -/
theorem claim_C6_witness :
    (runScript L0 W0 ⟨none, []⟩ (some [1]) true).display = .selector fiveNames := by
  have hx : (runScript L0 W0 ⟨none, []⟩ (some [1]) true).display
      = .selector ["Pytesseract OCR", "Docling Conversion", "PyMuPDF Conversion",
                   "Mistral OCR", "Original Document"] := by decide
  have h2 := claim_C6.2 L0 W0 ⟨none, []⟩ (some [1]) true ReachableSession.init _ hx
  rw [hx, h2]

/-! ### The uploaded branch never touches the cache directory -/

theorem pytesseract_setCache (libs : Libs) (s : ByteStream) (w : World)
    (c' : List (String × String)) :
    parse_with_pytesseract libs s { w with cacheFiles := c' }
      = ((parse_with_pytesseract libs s w).1, (parse_with_pytesseract libs s w).2.1,
         { (parse_with_pytesseract libs s w).2.2 with cacheFiles := c' }) := by
  obtain ⟨e, t, c, x⟩ := w
  simp only [parse_with_pytesseract, writeTemp, ByteStream.read, freshTmpName]
  cases hr : libs.rasterize (s.data.drop s.pos) <;> simp [hr]

theorem docling_setCache (libs : Libs) (s : ByteStream) (w : World)
    (c' : List (String × String)) :
    parse_with_docling libs s { w with cacheFiles := c' }
      = ((parse_with_docling libs s w).1, (parse_with_docling libs s w).2.1,
         { (parse_with_docling libs s w).2.2 with cacheFiles := c' }) := by
  obtain ⟨e, t, c, x⟩ := w
  simp [parse_with_docling, writeTemp, ByteStream.read, freshTmpName]

theorem pymupdf_setCache (libs : Libs) (s : ByteStream) (w : World)
    (c' : List (String × String)) :
    parse_with_pymupdf libs s { w with cacheFiles := c' }
      = ((parse_with_pymupdf libs s w).1, (parse_with_pymupdf libs s w).2.1,
         { (parse_with_pymupdf libs s w).2.2 with cacheFiles := c' }) := by
  obtain ⟨e, t, c, x⟩ := w
  simp [parse_with_pymupdf, writeTemp, ByteStream.read, freshTmpName]

theorem mistral_setCache (libs : Libs) (s : ByteStream) (w : World)
    (c' : List (String × String)) :
    parse_with_mistral libs s { w with cacheFiles := c' }
      = ((parse_with_mistral libs s w).1, (parse_with_mistral libs s w).2.1,
         { (parse_with_mistral libs s w).2.2 with cacheFiles := c' }) := by
  obtain ⟨e, t, c, x⟩ := w
  simp only [parse_with_mistral, writeTemp, ByteStream.read, freshTmpName]
  split
  · simp
  · cases hr : libs.mistral_ocr (s.data.drop s.pos) <;> simp [hr]

theorem uploadedMethods_setCache (libs : Libs) :
    ∀ q ∈ uploadedMethods, ∀ (s : ByteStream) (w : World)
      (c' : List (String × String)),
      q.2 libs s { w with cacheFiles := c' }
        = ((q.2 libs s w).1, (q.2 libs s w).2.1,
           { (q.2 libs s w).2.2 with cacheFiles := c' }) := by
  intro q hq
  simp only [uploadedMethods, List.mem_cons, List.not_mem_nil, or_false] at hq
  rcases hq with rfl | rfl | rfl | rfl
  · exact pytesseract_setCache libs
  · exact docling_setCache libs
  · exact pymupdf_setCache libs
  · exact mistral_setCache libs

theorem uploadedMethods_cachePres (libs : Libs) :
    ∀ q ∈ uploadedMethods, ∀ (s : ByteStream) (w : World),
      ((q.2 : Adapter) libs s w).2.2.cacheFiles = w.cacheFiles := by
  intro q hq s w
  simp only [uploadedMethods, List.mem_cons, List.not_mem_nil, or_false] at hq
  rcases hq with rfl | rfl | rfl | rfl
  · rw [(pytesseract_world libs s w).2]
  · rw [(docling_world libs s w).2]
  · rw [(pymupdf_world libs s w).2]
  · rw [(mistral_world libs s w).2]

theorem rmU_setCache (libs : Libs) (b : Bytes) :
    ∀ (ms : List (String × Adapter)),
      (∀ q ∈ ms, ∀ (s : ByteStream) (w : World) (c' : List (String × String)),
        q.2 libs s { w with cacheFiles := c' }
          = ((q.2 libs s w).1, (q.2 libs s w).2.1,
             { (q.2 libs s w).2.2 with cacheFiles := c' })) →
      ∀ (w : World) (c' : List (String × String)),
        runMethodsUploaded libs b { w with cacheFiles := c' } ms
          = ((runMethodsUploaded libs b w ms).1,
             { (runMethodsUploaded libs b w ms).2.1 with cacheFiles := c' },
             (runMethodsUploaded libs b w ms).2.2) := by
  intro ms
  induction ms with
  | nil =>
    intro _ w c'
    simp [rmU_nil]
  | cons head rest ih =>
    intro hall w c'
    obtain ⟨name, p⟩ := head
    have hp := hall (name, p) (List.mem_cons_self _ _) ⟨b, 0⟩ w c'
    dsimp only at hp
    rcases hq : p libs ⟨b, 0⟩ w with ⟨r, s', wq⟩
    rw [hq] at hp
    cases r with
    | exn e =>
      rw [rmU_cons_exn libs b w name p rest e s' wq hq,
          rmU_cons_exn libs b { w with cacheFiles := c' } name p rest e s'
            { wq with cacheFiles := c' } hp]
    | ok t =>
      rw [rmU_cons_ok libs b w name p rest t s' wq hq,
          rmU_cons_ok libs b { w with cacheFiles := c' } name p rest t s'
            { wq with cacheFiles := c' } hp,
          ih (fun q hq' => hall q (List.mem_cons_of_mem _ hq')) wq c']

theorem rmU_cachePres (libs : Libs) (b : Bytes) :
    ∀ (ms : List (String × Adapter)),
      (∀ q ∈ ms, ∀ (s : ByteStream) (w : World),
        ((q.2 : Adapter) libs s w).2.2.cacheFiles = w.cacheFiles) →
      ∀ (w : World),
        (runMethodsUploaded libs b w ms).2.1.cacheFiles = w.cacheFiles := by
  intro ms
  induction ms with
  | nil => intro _ w; rw [rmU_nil]
  | cons head rest ih =>
    intro hall w
    obtain ⟨name, p⟩ := head
    have hp := hall (name, p) (List.mem_cons_self _ _) ⟨b, 0⟩ w
    dsimp only at hp
    rcases hq : p libs ⟨b, 0⟩ w with ⟨r, s', wq⟩
    rw [hq] at hp
    cases r with
    | exn e =>
      rw [rmU_cons_exn libs b w name p rest e s' wq hq]
      exact hp
    | ok t =>
      rw [rmU_cons_ok libs b w name p rest t s' wq hq]
      rw [ih (fun q hq' => hall q (List.mem_cons_of_mem _ hq')) wq]
      exact hp

theorem finishDisplay_world_eq (res : Results) (w : World) (sess : Session)
    (msgs : List Msg) : (finishDisplay res w sess msgs).world = w := by
  unfold finishDisplay
  split <;> rfl

theorem finishDisplay_setCache (res : Results) (w : World) (sess : Session)
    (msgs : List Msg) (c' : List (String × String)) :
    finishDisplay res { w with cacheFiles := c' } sess msgs
      = { finishDisplay res w sess msgs with
          world := { (finishDisplay res w sess msgs).world with cacheFiles := c' } } := by
  unfold finishDisplay
  split <;> rfl

theorem processUploaded_setCache (libs : Libs) (w : World) (sess : Session)
    (b : Bytes) (msgs : List Msg) (c' : List (String × String)) :
    (processUploaded libs w sess b msgs).world.cacheFiles = w.cacheFiles ∧
    processUploaded libs { w with cacheFiles := c' } sess b msgs
      = { processUploaded libs w sess b msgs with
          world := { (processUploaded libs w sess b msgs).world
                     with cacheFiles := c' } } := by
  cases hur : sess.uploadedResults with
  | some res =>
    rw [processUploaded_some libs w sess b msgs res hur,
        processUploaded_some libs { w with cacheFiles := c' } sess b msgs res hur]
    exact ⟨by rw [finishDisplay_world_eq], finishDisplay_setCache res w sess msgs c'⟩
  | none =>
    rcases hrm : runMethodsUploaded libs b w uploadedMethods with ⟨es, w', err⟩
    have hrm' : runMethodsUploaded libs b { w with cacheFiles := c' } uploadedMethods
        = (es, { w' with cacheFiles := c' }, err) := by
      rw [rmU_setCache libs b uploadedMethods (uploadedMethods_setCache libs) w c', hrm]
    have hpres : w'.cacheFiles = w.cacheFiles := by
      have hcp := rmU_cachePres libs b uploadedMethods (uploadedMethods_cachePres libs) w
      rw [hrm] at hcp
      exact hcp
    cases err with
    | some e =>
      rw [processUploaded_none_exn libs w sess b msgs es w' e hur hrm,
          processUploaded_none_exn libs { w with cacheFiles := c' } sess b msgs es
            { w' with cacheFiles := c' } e hur hrm']
      exact ⟨hpres, rfl⟩
    | none =>
      rw [processUploaded_none_ok libs w sess b msgs es w' hur hrm,
          processUploaded_none_ok libs { w with cacheFiles := c' } sess b msgs es
            { w' with cacheFiles := c' } hur hrm']
      refine ⟨by rw [finishDisplay_world_eq]; exact hpres, ?_⟩
      exact finishDisplay_setCache _ w' _ msgs c'

/-- Claim C7: processing an uploaded document neither reads nor writes the
cache directory.  The run leaves the cache contents unchanged, and every
observable output of the run (returned/raised result, session contents —
hence the recomputed results — messages, display, temporary files) is
identical for any two cache states. -/
theorem claim_C7 (libs : Libs) (w : World) (sess : Session) (b : Bytes)
    (ch : Bool) (c' : List (String × String)) :
    (runScript libs w sess (some b) ch).world.cacheFiles = w.cacheFiles ∧
    (runScript libs { w with cacheFiles := c' } sess (some b) ch).res
      = (runScript libs w sess (some b) ch).res ∧
    (runScript libs { w with cacheFiles := c' } sess (some b) ch).session
      = (runScript libs w sess (some b) ch).session ∧
    (runScript libs { w with cacheFiles := c' } sess (some b) ch).display
      = (runScript libs w sess (some b) ch).display ∧
    (runScript libs { w with cacheFiles := c' } sess (some b) ch).msgs
      = (runScript libs w sess (some b) ch).msgs ∧
    (runScript libs { w with cacheFiles := c' } sess (some b) ch).world
      = { (runScript libs w sess (some b) ch).world with cacheFiles := c' } := by
  by_cases hb : b = []
  · subst hb
    simp [runScript]
  · rw [runScript_uploaded libs w sess b ch hb,
        runScript_uploaded libs { w with cacheFiles := c' } sess b ch hb]
    obtain ⟨h1, h2⟩ := processUploaded_setCache libs w sess b
      [.sidebarSuccess "PDF uploaded successfully!"] c'
    rw [h2]
    exact ⟨h1, rfl, rfl, rfl, rfl, rfl⟩

end ParsingApp
